import Mathlib

/-!
Verification of the reliabot tool-call gateway and operation lifecycle tracker
(`src/reliabot/mcp_gcloud_compute_http.py`, `src/reliabot/mcp_gcloud_compute.py`,
`src/reliabot/app.py`).

The development shallowly embeds the gateway's dispatch logic, the polling loops
of the lifecycle tracker, the bounded action ledger, and the JSON wire encoding
(`json.dumps` / `json.loads` are modelled by an executable serializer and a
recursive-descent parser over character lists, with a proved round-trip).
-/

set_option maxHeartbeats 1000000
set_option maxRecDepth 100000

namespace Reliabot

mutual

/-- JSON values, as produced by Python `json.loads` and consumed by
`json.dumps`.  Strings are character lists; numbers are integers (the
gateway's payloads carry only integral numbers); objects are
insertion-ordered key/value sequences, matching Python's insertion-ordered
`dict`.  Arrays and objects use their own mutually inductive list types so
that all functions over them are plain structural recursions. -/
inductive JsonVal where
  | null
  | bool (b : Bool)
  | num (n : Int)
  | str (s : List Char)
  | arr (items : JsonArr)
  | obj (fields : JsonObj)
deriving Repr

inductive JsonArr where
  | nil
  | cons (v : JsonVal) (tail : JsonArr)
deriving Repr

inductive JsonObj where
  | nil
  | cons (k : List Char) (v : JsonVal) (tail : JsonObj)
deriving Repr

end

/-- Left curly brace character (written by code point to keep brace
characters out of string literals). -/
def lbrace : Char := Char.ofNat 123

/-- Right curly brace character. -/
def rbrace : Char := Char.ofNat 125

/-- One decimal digit character. -/
def digitChar (n : Nat) : Char := Char.ofNat (48 + n)

/-- Fuelled digit emitter: decimal digits of `n`, most significant first,
prepended to `acc`.  Any fuel with `n < 10 ^ fuel` is sufficient. -/
def natDigitsGo : Nat → Nat → List Char → List Char
  | 0, _, acc => acc
  | fuel + 1, n, acc =>
      if n < 10 then digitChar n :: acc
      else natDigitsGo fuel (n / 10) (digitChar (n % 10) :: acc)

/-- Decimal digits of a natural number (model of Python's integer
formatting inside `json.dumps`). -/
def natDigits (n : Nat) : List Char := natDigitsGo (n + 1) n []

/-- Decimal rendering of an integer. -/
def intChars (n : Int) : List Char :=
  if n < 0 then '-' :: natDigits (-n).toNat else natDigits n.toNat

/-- JSON string escaping: `json.dumps` escapes the quote and the backslash
(other printable characters are emitted verbatim). -/
def escChar (c : Char) : List Char :=
  if c = '"' ∨ c = '\\' then ['\\', c] else [c]

def escString : List Char → List Char
  | [] => []
  | c :: cs => escChar c ++ escString cs

/-- Newline followed by `ind` spaces: the layout `json.dumps(..., indent=2)`
inserts before container elements. -/
def nlInd (ind : Nat) : List Char := '\n' :: List.replicate ind ' '

mutual

/-- Model of `json.dumps(v, indent=2)` rendered at indentation level `ind`:
compact scalars, indented containers. -/
def serJson (ind : Nat) : JsonVal → List Char
  | .null => "null".data
  | .bool true => "true".data
  | .bool false => "false".data
  | .num n => intChars n
  | .str s => '"' :: (escString s ++ ['"'])
  | .arr .nil => ['[', ']']
  | .arr (.cons v vs) =>
      '[' :: (nlInd (ind + 2) ++ serJson (ind + 2) v ++ serItems (ind + 2) vs
        ++ nlInd ind ++ [']'])
  | .obj .nil => [lbrace, rbrace]
  | .obj (.cons k v fs) =>
      lbrace :: (nlInd (ind + 2)
        ++ '"' :: (escString k ++ '"' :: ':' :: ' ' :: serJson (ind + 2) v)
        ++ serFields (ind + 2) fs ++ nlInd ind ++ [rbrace])

/-- The `",\n<indent>" ++ item` tail segments of a serialized array. -/
def serItems (ind : Nat) : JsonArr → List Char
  | .nil => []
  | .cons v vs => ',' :: (nlInd ind ++ serJson ind v ++ serItems ind vs)

/-- The `",\n<indent>" ++ member` tail segments of a serialized object. -/
def serFields (ind : Nat) : JsonObj → List Char
  | .nil => []
  | .cons k v fs =>
      ',' :: (nlInd ind
        ++ '"' :: (escString k ++ '"' :: ':' :: ' ' :: serJson ind v)
        ++ serFields ind fs)

end

/-- Model of `json.dumps(v, indent=2)` as called by the gateway handlers. -/
def dumps (v : JsonVal) : List Char := serJson 0 v

/-- JSON whitespace. -/
def isWs (c : Char) : Bool := c = ' ' ∨ c = '\n' ∨ c = '\t' ∨ c = '\r'

def skipWs : List Char → List Char
  | [] => []
  | c :: cs => if isWs c then skipWs cs else c :: cs

/-- Digit prefix of the input, and the remaining input. -/
def takeDigits : List Char → List Char × List Char
  | [] => ([], [])
  | c :: cs =>
      if c.isDigit then
        let (ds, r) := takeDigits cs
        (c :: ds, r)
      else ([], c :: cs)

/-- Value of one decimal digit character. -/
def digitVal (c : Char) : Nat := c.toNat - 48

/-- Natural number denoted by a digit string. -/
def digitsToNat (ds : List Char) : Nat := ds.foldl (fun a c => a * 10 + digitVal c) 0

/-- Body of a JSON string after the opening quotes; `escaped` records
whether the previous character was an unconsumed backslash.  Returns the
unescaped content and the input after the closing quote. -/
def parseStrGo (escaped : Bool) : List Char → Option (List Char × List Char)
  | [] => none
  | c :: rest =>
      if escaped then
        if c = '"' ∨ c = '\\' then
          match parseStrGo false rest with
          | some (s, r) => some (c :: s, r)
          | none => none
        else none
      else if c = '"' then some ([], rest)
      else if c = '\\' then parseStrGo true rest
      else
        match parseStrGo false rest with
        | some (s, r) => some (c :: s, r)
        | none => none

/-- Body of a JSON string after the opening quote. -/
def parseStrBody (s : List Char) : Option (List Char × List Char) :=
  parseStrGo false s

/-- A quoted object key: the opening quote followed by the string body. -/
def parseKey : List Char → Option (List Char × List Char)
  | '"' :: rest => parseStrBody rest
  | _ => none

/-- Position of the recursive-descent parser within a composite value.
Every mode expects its input with leading whitespace already skipped;
recursive calls pre-skip with `skipWs`. -/
inductive PMode where
  | val
  | arrBody
  | items
  | objBody
  | fieldAt
  | colonVal
  | fieldsTail

/-- Result of one parsing mode. -/
inductive PRes where
  | val (v : JsonVal)
  | items (vs : JsonArr)
  | field (k : List Char) (v : JsonVal)
  | fields (fs : JsonObj)

/-- Recursive-descent JSON parser (model of `json.loads`), fuelled; all the
descent modes are merged into one structural recursion on the fuel so the
function evaluates by kernel reduction. -/
def parseStep : Nat → PMode → List Char → Option (PRes × List Char)
  | 0, _, _ => none
  | fuel + 1, mode, input =>
    match mode with
    | .val =>
      match input with
      | [] => none
      | c :: rest =>
        if c = 'n' then
          match rest with
          | 'u' :: 'l' :: 'l' :: r => some (.val .null, r)
          | _ => none
        else if c = 't' then
          match rest with
          | 'r' :: 'u' :: 'e' :: r => some (.val (.bool true), r)
          | _ => none
        else if c = 'f' then
          match rest with
          | 'a' :: 'l' :: 's' :: 'e' :: r => some (.val (.bool false), r)
          | _ => none
        else if c = '"' then
          match parseStrBody rest with
          | some (s, r) => some (.val (.str s), r)
          | none => none
        else if c = '-' then
          match takeDigits rest with
          | ([], _) => none
          | (ds, r) => some (.val (.num (-(digitsToNat ds : Int))), r)
        else if c.isDigit then
          match takeDigits (c :: rest) with
          | (ds, r) => some (.val (.num (digitsToNat ds)), r)
        else if c = '[' then parseStep fuel .arrBody (skipWs rest)
        else if c = lbrace then parseStep fuel .objBody (skipWs rest)
        else none
    | .arrBody =>
      match input with
      | [] => none
      | c :: rest =>
        if c = ']' then some (.val (.arr .nil), rest)
        else
          match parseStep fuel .val (c :: rest) with
          | some (.val v, r) =>
            match parseStep fuel .items (skipWs r) with
            | some (.items vs, r2) => some (.val (.arr (.cons v vs)), r2)
            | _ => none
          | _ => none
    | .items =>
      match input with
      | [] => none
      | c :: rest =>
        if c = ',' then
          match parseStep fuel .val (skipWs rest) with
          | some (.val v, r) =>
            match parseStep fuel .items (skipWs r) with
            | some (.items vs, r2) => some (.items (.cons v vs), r2)
            | _ => none
          | _ => none
        else if c = ']' then some (.items .nil, rest)
        else none
    | .objBody =>
      match input with
      | [] => none
      | c :: rest =>
        if c = rbrace then some (.val (.obj .nil), rest)
        else
          match parseStep fuel .fieldAt (c :: rest) with
          | some (.field k v, r) =>
            match parseStep fuel .fieldsTail (skipWs r) with
            | some (.fields fs, r2) => some (.val (.obj (.cons k v fs)), r2)
            | _ => none
          | _ => none
    | .fieldAt =>
      match parseKey input with
      | some (k, r) =>
        match parseStep fuel .colonVal (skipWs r) with
        | some (.val v, r2) => some (.field k v, r2)
        | _ => none
      | none => none
    | .colonVal =>
      match input with
      | [] => none
      | c :: rest =>
        if c = ':' then parseStep fuel .val (skipWs rest)
        else none
    | .fieldsTail =>
      match input with
      | [] => none
      | c :: rest =>
        if c = ',' then
          match parseStep fuel .fieldAt (skipWs rest) with
          | some (.field k v, r) =>
            match parseStep fuel .fieldsTail (skipWs r) with
            | some (.fields fs, r2) => some (.fields (.cons k v fs), r2)
            | _ => none
          | _ => none
        else if c = rbrace then some (.fields .nil, rest)
        else none

/-- Model of `json.loads`: parse one value and require only trailing
whitespace after it. -/
def jsonParse (s : List Char) : Option JsonVal :=
  match parseStep (s.length + 1) .val (skipWs s) with
  | some (.val v, rest) => if skipWs rest = [] then some v else none
  | _ => none

/-! ### Facts about digit rendering -/

theorem digitChar_facts {n : Nat} (h : n < 10) :
    (digitChar n).isDigit = true ∧ digitVal (digitChar n) = n ∧
      isWs (digitChar n) = false := by
  interval_cases n <;> exact ⟨rfl, rfl, rfl⟩

theorem natDigitsGo_acc (fuel : Nat) : ∀ n acc,
    natDigitsGo fuel n acc = natDigitsGo fuel n [] ++ acc := by
  induction fuel with
  | zero => intro n acc; rfl
  | succ f ih =>
    intro n acc
    by_cases h : n < 10
    · simp [natDigitsGo, h]
    · simp only [natDigitsGo, if_neg h]
      rw [ih (n / 10) (digitChar (n % 10) :: acc), ih (n / 10) [digitChar (n % 10)]]
      simp

theorem natDigitsGo_digits (fuel : Nat) : ∀ n, ∀ c ∈ natDigitsGo fuel n [], c.isDigit = true := by
  induction fuel with
  | zero => intro n c hc; simp [natDigitsGo] at hc
  | succ f ih =>
    intro n c hc
    by_cases h : n < 10
    · simp [natDigitsGo, h] at hc
      subst hc; exact (digitChar_facts h).1
    · simp only [natDigitsGo, if_neg h] at hc
      rw [natDigitsGo_acc] at hc
      rcases List.mem_append.mp hc with h1 | h1
      · exact ih _ c h1
      · simp at h1; subst h1
        exact (digitChar_facts (Nat.mod_lt _ (by omega))).1

theorem digitsToNat_append (ds : List Char) (c : Char) :
    digitsToNat (ds ++ [c]) = digitsToNat ds * 10 + digitVal c := by
  simp [digitsToNat, List.foldl_append]

theorem natDigits_ne_nil (n : Nat) : natDigits n ≠ [] := by
  unfold natDigits natDigitsGo
  by_cases h : n < 10
  · simp [h]
  · simp only [if_neg h]
    rw [natDigitsGo_acc]
    simp

theorem natDigitsGo_val (fuel : Nat) : ∀ n, n < 10 ^ fuel →
    digitsToNat (natDigitsGo fuel n []) = n := by
  induction fuel with
  | zero =>
    intro n hn
    have hn0 : n = 0 := by simpa using hn
    subst hn0; rfl
  | succ f ih =>
    intro n hn
    by_cases h : n < 10
    · simp only [natDigitsGo, if_pos h]
      have := (digitChar_facts h).2.1
      simp [digitsToNat, this]
    · simp only [natDigitsGo, if_neg h]
      rw [natDigitsGo_acc, digitsToNat_append]
      have hdiv : n / 10 < 10 ^ f := by
        rw [pow_succ] at hn
        omega
      rw [ih _ hdiv, (digitChar_facts (Nat.mod_lt _ (by omega))).2.1]
      omega

theorem natDigits_digits (n : Nat) : ∀ c ∈ natDigits n, c.isDigit = true :=
  natDigitsGo_digits (n + 1) n

theorem pow_fuel_ok (n : Nat) : n < 10 ^ (n + 1) := by
  calc n < 2 ^ n := Nat.lt_two_pow n
  _ ≤ 10 ^ n := Nat.pow_le_pow_left (by omega) _
  _ < 10 ^ (n + 1) := by
      apply Nat.pow_lt_pow_right (by omega)
      omega

theorem natDigits_val (n : Nat) : digitsToNat (natDigits n) = n :=
  natDigitsGo_val (n + 1) n (pow_fuel_ok n)

/-! ### Facts about whitespace skipping -/

theorem skipWs_not_ws {c : Char} (h : isWs c = false) (t : List Char) :
    skipWs (c :: t) = c :: t := by
  simp [skipWs, h]

theorem skipWs_all_ws {w : List Char} (h : ∀ c ∈ w, isWs c = true) (t : List Char) :
    skipWs (w ++ t) = skipWs t := by
  induction w with
  | nil => rfl
  | cons c cs ih =>
    simp only [List.cons_append, skipWs, h c (by simp), if_true]
    exact ih (fun c hc => h c (by simp [hc]))

theorem skipWs_nlInd (ind : Nat) (t : List Char) : skipWs (nlInd ind ++ t) = skipWs t := by
  apply skipWs_all_ws
  intro c hc
  simp only [nlInd, List.mem_cons] at hc
  rcases hc with rfl | hc
  · rfl
  · rw [List.eq_of_mem_replicate hc]; rfl

/-! ### Facts about string-body parsing -/

theorem parseStrGo_cons (escaped : Bool) (c : Char) (rest : List Char) :
    parseStrGo escaped (c :: rest) =
      (if escaped then
        if c = '"' ∨ c = '\\' then
          match parseStrGo false rest with
          | some (s, r) => some (c :: s, r)
          | none => none
        else none
      else if c = '"' then some ([], rest)
      else if c = '\\' then parseStrGo true rest
      else
        match parseStrGo false rest with
        | some (s, r) => some (c :: s, r)
        | none => none) := rfl

theorem parseStrBody_esc : ∀ s t, parseStrBody (escString s ++ '"' :: t) = some (s, t) := by
  intro s
  induction s with
  | nil => intro t; rfl
  | cons c cs ih =>
    intro t
    by_cases h : c = '"' ∨ c = '\\'
    · obtain rfl | rfl := h
      · rw [show parseStrBody (escString ('"' :: cs) ++ '"' :: t)
            = (match parseStrBody (escString cs ++ '"' :: t) with
               | some (s, r) => some ('"' :: s, r)
               | none => none) from rfl, ih t]
      · rw [show parseStrBody (escString ('\\' :: cs) ++ '"' :: t)
            = (match parseStrBody (escString cs ++ '"' :: t) with
               | some (s, r) => some ('\\' :: s, r)
               | none => none) from rfl, ih t]
    · push_neg at h
      rw [show parseStrBody (escString (c :: cs) ++ '"' :: t)
          = parseStrGo false (escChar c ++ escString cs ++ '"' :: t) from rfl]
      rw [show escChar c = [c] from by simp [escChar]; tauto]
      simp only [List.cons_append, List.nil_append]
      rw [parseStrGo_cons]
      simp only [Bool.false_eq_true, if_false, if_neg h.1, if_neg h.2]
      rw [show parseStrGo false (escString cs ++ '"' :: t)
          = parseStrBody (escString cs ++ '"' :: t) from rfl, ih t]

/-! ### Facts about digit scanning -/

/-- The remaining input does not begin with a digit (so a number-literal
scan stops exactly at the value boundary). -/
def noDigitStart : List Char → Bool
  | [] => true
  | c :: _ => !c.isDigit

theorem takeDigits_stop {t : List Char} (h : noDigitStart t = true) :
    takeDigits t = ([], t) := by
  cases t with
  | nil => rfl
  | cons c cs =>
    simp only [noDigitStart, Bool.not_eq_true'] at h
    simp [takeDigits, h]

theorem takeDigits_run {ds : List Char} (hds : ∀ c ∈ ds, c.isDigit = true)
    {t : List Char} (h : noDigitStart t = true) :
    takeDigits (ds ++ t) = (ds, t) := by
  induction ds with
  | nil => simpa using takeDigits_stop h
  | cons c cs ih =>
    have h1 := ih (fun c hc => hds c (by simp [hc]))
    simp [takeDigits, hds c (by simp), List.append_eq, h1]

/-! ### Size measures giving sufficient parser fuel -/

mutual

/-- Fuel needed to re-parse a serialized value. -/
def jsizeV : JsonVal → Nat
  | .null => 1
  | .bool _ => 1
  | .num _ => 1
  | .str _ => 1
  | .arr vs => jsizeA vs + 2
  | .obj fs => jsizeO fs + 2

def jsizeA : JsonArr → Nat
  | .nil => 0
  | .cons v vs => jsizeV v + jsizeA vs + 1

def jsizeO : JsonObj → Nat
  | .nil => 0
  | .cons _ v fs => jsizeV v + jsizeO fs + 4

end

/-! ### Whitespace absorption by the parser -/

theorem skipWs_idem (x : List Char) : skipWs (skipWs x) = skipWs x := by
  induction x with
  | nil => rfl
  | cons c cs ih =>
    by_cases h : isWs c = true
    · simp [skipWs, h, ih]
    · simp at h
      simp [skipWs, h]

/-! ### Shape of serialized output -/

theorem isDigit_ne {c d : Char} (h : c.isDigit = true) (hd : d.isDigit = false) : c ≠ d := by
  intro he
  subst he
  rw [h] at hd
  cases hd

theorem isWs_elim {c : Char} (h : isWs c = true) :
    c = ' ' ∨ c = '\n' ∨ c = '\t' ∨ c = '\r' := by
  simpa [isWs] using h

theorem isDigit_not_ws {c : Char} (h : c.isDigit = true) : isWs c = false := by
  cases hw : isWs c with
  | false => rfl
  | true =>
    exfalso
    rcases isWs_elim hw with rfl | rfl | rfl | rfl <;> simp at h

/-- Every serialized value starts with a non-whitespace character that is
neither a closing bracket nor a closing brace. -/
theorem serJson_head (ind : Nat) (v : JsonVal) :
    ∃ c t, serJson ind v = c :: t ∧ isWs c = false ∧ c ≠ ']' ∧ c ≠ rbrace := by
  cases v with
  | null => exact ⟨'n', _, rfl, rfl, by decide, by decide⟩
  | bool b => cases b with
    | false => exact ⟨'f', _, rfl, rfl, by decide, by decide⟩
    | true => exact ⟨'t', _, rfl, rfl, by decide, by decide⟩
  | num n =>
    by_cases hn : n < 0
    · exact ⟨'-', natDigits (-n).toNat, by simp [serJson, intChars, hn], rfl,
        by decide, by decide⟩
    · obtain ⟨c, ds, hds⟩ := List.exists_cons_of_ne_nil (natDigits_ne_nil n.toNat)
      have hd : c.isDigit = true := natDigits_digits n.toNat c (by rw [hds]; simp)
      exact ⟨c, ds, by simp [serJson, intChars, hn, hds], isDigit_not_ws hd,
        isDigit_ne hd (by decide), isDigit_ne hd (by decide)⟩
  | str s => exact ⟨'"', _, rfl, rfl, by decide, by decide⟩
  | arr vs => cases vs with
    | nil => exact ⟨'[', _, rfl, rfl, by decide, by decide⟩
    | cons v vs => exact ⟨'[', _, rfl, rfl, by decide, by decide⟩
  | obj fs => cases fs with
    | nil => exact ⟨lbrace, _, rfl, by decide, by decide, by decide⟩
    | cons k v fs => exact ⟨lbrace, _, rfl, by decide, by decide, by decide⟩

/-- The continuation after an array element never starts with a digit. -/
theorem noDigitStart_serItems (ind2 ind : Nat) (vs : JsonArr) (x : List Char) :
    noDigitStart (serItems ind2 vs ++ (nlInd ind ++ x)) = true := by
  cases vs <;> rfl

/-- The continuation after an object member never starts with a digit. -/
theorem noDigitStart_serFields (ind2 ind : Nat) (fs : JsonObj) (x : List Char) :
    noDigitStart (serFields ind2 fs ++ (nlInd ind ++ x)) = true := by
  cases fs <;> rfl

theorem skipWs_serJson (ind : Nat) (v : JsonVal) (x : List Char) :
    skipWs (serJson ind v ++ x) = serJson ind v ++ x := by
  obtain ⟨c, t, hct, hws, _, _⟩ := serJson_head ind v
  rw [hct, List.cons_append, skipWs_not_ws hws, ← List.cons_append, ← hct]

/-! ### One-step unfoldings of the parser -/

theorem ps_val_bracket (f : Nat) (x : List Char) :
    parseStep (f + 1) .val ('[' :: x) = parseStep f .arrBody (skipWs x) := rfl

theorem ps_val_lbrace (f : Nat) (x : List Char) :
    parseStep (f + 1) .val (lbrace :: x) = parseStep f .objBody (skipWs x) := rfl

theorem ps_val_quote (f : Nat) (x : List Char) :
    parseStep (f + 1) .val ('"' :: x) =
      (match parseStrBody x with
       | some (s, r) => some (.val (.str s), r)
       | none => none) := rfl

theorem ps_val_minus (f : Nat) (x : List Char) :
    parseStep (f + 1) .val ('-' :: x) =
      (match takeDigits x with
       | ([], _) => none
       | (ds, r) => some (.val (.num (-(digitsToNat ds : Int))), r)) := rfl

theorem ps_val_cons (f : Nat) (c : Char) (rest : List Char) :
    parseStep (f + 1) .val (c :: rest) =
      (if c = 'n' then
        match rest with
        | 'u' :: 'l' :: 'l' :: r => some (.val .null, r)
        | _ => none
      else if c = 't' then
        match rest with
        | 'r' :: 'u' :: 'e' :: r => some (.val (.bool true), r)
        | _ => none
      else if c = 'f' then
        match rest with
        | 'a' :: 'l' :: 's' :: 'e' :: r => some (.val (.bool false), r)
        | _ => none
      else if c = '"' then
        match parseStrBody rest with
        | some (s, r) => some (.val (.str s), r)
        | none => none
      else if c = '-' then
        match takeDigits rest with
        | ([], _) => none
        | (ds, r) => some (.val (.num (-(digitsToNat ds : Int))), r)
      else if c.isDigit then
        match takeDigits (c :: rest) with
        | (ds, r) => some (.val (.num (digitsToNat ds)), r)
      else if c = '[' then parseStep f .arrBody (skipWs rest)
      else if c = lbrace then parseStep f .objBody (skipWs rest)
      else none) := rfl

theorem ps_arrBody_cons (f : Nat) (c : Char) (rest : List Char) :
    parseStep (f + 1) .arrBody (c :: rest) =
      (if c = ']' then some (.val (.arr .nil), rest)
       else
        match parseStep f .val (c :: rest) with
        | some (.val v, r) =>
          match parseStep f .items (skipWs r) with
          | some (.items vs, r2) => some (.val (.arr (.cons v vs)), r2)
          | _ => none
        | _ => none) := rfl

theorem ps_items_cons (f : Nat) (c : Char) (rest : List Char) :
    parseStep (f + 1) .items (c :: rest) =
      (if c = ',' then
        match parseStep f .val (skipWs rest) with
        | some (.val v, r) =>
          match parseStep f .items (skipWs r) with
          | some (.items vs, r2) => some (.items (.cons v vs), r2)
          | _ => none
        | _ => none
      else if c = ']' then some (.items .nil, rest)
      else none) := rfl

theorem ps_objBody_cons (f : Nat) (c : Char) (rest : List Char) :
    parseStep (f + 1) .objBody (c :: rest) =
      (if c = rbrace then some (.val (.obj .nil), rest)
       else
        match parseStep f .fieldAt (c :: rest) with
        | some (.field k v, r) =>
          match parseStep f .fieldsTail (skipWs r) with
          | some (.fields fs, r2) => some (.val (.obj (.cons k v fs)), r2)
          | _ => none
        | _ => none) := rfl

theorem ps_fieldAt_quote (f : Nat) (x : List Char) :
    parseStep (f + 1) .fieldAt ('"' :: x) =
      (match parseStrBody x with
       | some (k, r) =>
        match parseStep f .colonVal (skipWs r) with
        | some (.val v, r2) => some (.field k v, r2)
        | _ => none
       | none => none) := rfl

theorem ps_colon (f : Nat) (x : List Char) :
    parseStep (f + 1) .colonVal (':' :: x) = parseStep f .val (skipWs x) := rfl

theorem ps_fieldsTail_cons (f : Nat) (c : Char) (rest : List Char) :
    parseStep (f + 1) .fieldsTail (c :: rest) =
      (if c = ',' then
        match parseStep f .fieldAt (skipWs rest) with
        | some (.field k v, r) =>
          match parseStep f .fieldsTail (skipWs r) with
          | some (.fields fs, r2) => some (.fields (.cons k v fs), r2)
          | _ => none
        | _ => none
      else if c = rbrace then some (.fields .nil, rest)
      else none) := rfl

theorem jsizeV_pos (v : JsonVal) : 1 ≤ jsizeV v := by
  cases v <;> simp [jsizeV]

/-! ### The serializer/parser round-trip -/

mutual

theorem rt_val (v : JsonVal) : ∀ fuel ind rest, jsizeV v < fuel → noDigitStart rest = true →
    parseStep fuel .val (serJson ind v ++ rest) = some (.val v, rest) := by
  intro fuel ind rest hfuel hrest
  obtain ⟨f, rfl⟩ : ∃ f, fuel = f + 1 := ⟨fuel - 1, by omega⟩
  cases v with
  | null => rfl
  | bool b => cases b <;> rfl
  | num n =>
    by_cases hn : n < 0
    · have hser : serJson ind (.num n) = '-' :: natDigits (-n).toNat := by
        simp [serJson, intChars, hn]
      obtain ⟨c, ds, hds⟩ := List.exists_cons_of_ne_nil (natDigits_ne_nil (-n).toNat)
      rw [hser, List.cons_append, ps_val_minus,
        takeDigits_run (natDigits_digits _) hrest, hds]
      have hv : digitsToNat (c :: ds) = (-n).toNat := by rw [← hds, natDigits_val]
      simp only [hv]
      have hcast : (((-n).toNat : Int)) = -n := Int.toNat_of_nonneg (by omega)
      simp [hcast]
    · have hser : serJson ind (.num n) = natDigits n.toNat := by
        simp [serJson, intChars, hn]
      obtain ⟨c, ds, hds⟩ := List.exists_cons_of_ne_nil (natDigits_ne_nil n.toNat)
      have hd : c.isDigit = true := natDigits_digits n.toNat c (by rw [hds]; simp)
      have h1 : c ≠ 'n' := isDigit_ne hd (by decide)
      have h2 : c ≠ 't' := isDigit_ne hd (by decide)
      have h3 : c ≠ 'f' := isDigit_ne hd (by decide)
      have h4 : c ≠ '"' := isDigit_ne hd (by decide)
      have h5 : c ≠ '-' := isDigit_ne hd (by decide)
      rw [hser, hds, List.cons_append, ps_val_cons]
      simp only [h1, h2, h3, h4, h5, hd, if_true, if_false, ite_true, ite_false,
        eq_self_iff_true, if_neg, reduceCtorEq]
      rw [← List.cons_append, ← hds, takeDigits_run (natDigits_digits _) hrest,
        natDigits_val]
      have hcast : ((n.toNat : Int)) = n := Int.toNat_of_nonneg (by omega)
      simp [hcast]
  | str s =>
    have hser : serJson ind (.str s) ++ rest = '"' :: (escString s ++ '"' :: rest) := by
      simp [serJson]
    rw [hser, ps_val_quote, parseStrBody_esc]
  | arr vs =>
    cases vs with
    | nil =>
      obtain ⟨g, rfl⟩ : ∃ g, f = g + 1 := by
        refine ⟨f - 1, ?_⟩
        simp [jsizeV, jsizeA] at hfuel
        omega
      rw [show serJson ind (.arr .nil) ++ rest = '[' :: (']' :: rest) from rfl,
        ps_val_bracket, show skipWs (']' :: rest) = ']' :: rest from rfl,
        ps_arrBody_cons]
      rfl
    | cons v vs =>
      have hsz : jsizeV v + jsizeA vs + 3 < f + 1 := by
        simpa [jsizeV, jsizeA] using hfuel
      obtain ⟨g, rfl⟩ : ∃ g, f = g + 1 := ⟨f - 1, by omega⟩
      have hinput : serJson ind (.arr (.cons v vs)) ++ rest
          = '[' :: (nlInd (ind + 2) ++ (serJson (ind + 2) v
              ++ (serItems (ind + 2) vs ++ (nlInd ind ++ (']' :: rest))))) := by
        simp [serJson]
      rw [hinput, ps_val_bracket, skipWs_nlInd, skipWs_serJson]
      obtain ⟨c, t, hct, hws, hne1, hne2⟩ := serJson_head (ind + 2) v
      rw [hct, List.cons_append, ps_arrBody_cons, if_neg hne1,
        ← List.cons_append, ← hct,
        rt_val v g (ind + 2) _ (by omega) (noDigitStart_serItems _ _ _ _)]
      simp only [rt_items vs g (ind + 2) ind rest (by omega)]
  | obj fs =>
    cases fs with
    | nil =>
      obtain ⟨g, rfl⟩ : ∃ g, f = g + 1 := by
        refine ⟨f - 1, ?_⟩
        simp [jsizeV, jsizeO] at hfuel
        omega
      rw [show serJson ind (.obj .nil) ++ rest = lbrace :: (rbrace :: rest) from rfl,
        ps_val_lbrace, skipWs_not_ws (show isWs rbrace = false from by decide),
        ps_objBody_cons]
      rfl
    | cons k v fs =>
      have hsz : jsizeV v + jsizeO fs + 6 < f + 1 := by
        simpa [jsizeV, jsizeO] using hfuel
      obtain ⟨g, rfl⟩ : ∃ g, f = g + 1 := ⟨f - 1, by omega⟩
      have hinput : serJson ind (.obj (.cons k v fs)) ++ rest
          = lbrace :: (nlInd (ind + 2) ++ ('"' :: (escString k
              ++ '"' :: ':' :: ' ' :: (serJson (ind + 2) v
                ++ (serFields (ind + 2) fs ++ (nlInd ind ++ (rbrace :: rest))))))) := by
        simp [serJson]
      rw [hinput, ps_val_lbrace, skipWs_nlInd,
        skipWs_not_ws (show isWs '"' = false from rfl),
        ps_objBody_cons, if_neg (show ¬ ('"' = rbrace) from by decide),
        rt_field k v g (ind + 2) _ (by omega) (noDigitStart_serFields _ _ _ _)]
      simp only [rt_fields fs g (ind + 2) ind rest (by omega)]

theorem rt_items (vs : JsonArr) : ∀ fuel ind2 ind rest, jsizeA vs < fuel →
    parseStep fuel .items (skipWs (serItems ind2 vs ++ (nlInd ind ++ (']' :: rest))))
      = some (.items vs, rest) := by
  intro fuel ind2 ind rest hfuel
  obtain ⟨f, rfl⟩ : ∃ f, fuel = f + 1 := ⟨fuel - 1, by omega⟩
  cases vs with
  | nil =>
    rw [show serItems ind2 .nil ++ (nlInd ind ++ (']' :: rest))
        = nlInd ind ++ (']' :: rest) from rfl,
      skipWs_nlInd, show skipWs (']' :: rest) = ']' :: rest from rfl,
      ps_items_cons]
    rfl
  | cons v vs =>
    have hsz : jsizeV v + jsizeA vs + 1 < f + 1 := by
      simpa [jsizeA] using hfuel
    have hinput : serItems ind2 (.cons v vs) ++ (nlInd ind ++ (']' :: rest))
        = ',' :: (nlInd ind2 ++ (serJson ind2 v
            ++ (serItems ind2 vs ++ (nlInd ind ++ (']' :: rest))))) := by
      simp [serItems]
    rw [hinput, skipWs_not_ws (show isWs ',' = false from rfl), ps_items_cons,
      if_pos rfl, skipWs_nlInd, skipWs_serJson,
      rt_val v f ind2 _ (by omega) (noDigitStart_serItems _ _ _ _)]
    simp only [rt_items vs f ind2 ind rest (by omega)]

theorem rt_field (k : List Char) (v : JsonVal) :
    ∀ fuel ind rest, jsizeV v + 2 < fuel → noDigitStart rest = true →
    parseStep fuel .fieldAt ('"' :: (escString k ++ '"' :: ':' :: ' ' :: (serJson ind v ++ rest)))
      = some (.field k v, rest) := by
  intro fuel ind rest hfuel hrest
  obtain ⟨f, rfl⟩ : ∃ f, fuel = f + 1 := ⟨fuel - 1, by omega⟩
  obtain ⟨g, rfl⟩ : ∃ g, f = g + 1 := ⟨f - 1, by omega⟩
  rw [ps_fieldAt_quote, parseStrBody_esc]
  simp only [skipWs_not_ws (show isWs ':' = false from rfl), ps_colon,
    show skipWs (' ' :: (serJson ind v ++ rest)) = skipWs (serJson ind v ++ rest) from rfl,
    skipWs_serJson,
    rt_val v g ind rest (by omega) hrest]

theorem rt_fields (fs : JsonObj) : ∀ fuel ind2 ind rest, jsizeO fs < fuel →
    parseStep fuel .fieldsTail (skipWs (serFields ind2 fs ++ (nlInd ind ++ (rbrace :: rest))))
      = some (.fields fs, rest) := by
  intro fuel ind2 ind rest hfuel
  obtain ⟨f, rfl⟩ : ∃ f, fuel = f + 1 := ⟨fuel - 1, by omega⟩
  cases fs with
  | nil =>
    rw [show serFields ind2 .nil ++ (nlInd ind ++ (rbrace :: rest))
        = nlInd ind ++ (rbrace :: rest) from rfl,
      skipWs_nlInd, skipWs_not_ws (show isWs rbrace = false from by decide),
      ps_fieldsTail_cons]
    rfl
  | cons k v fs =>
    have hsz : jsizeV v + jsizeO fs + 4 < f + 1 := by
      simpa [jsizeO] using hfuel
    have hinput : serFields ind2 (.cons k v fs) ++ (nlInd ind ++ (rbrace :: rest))
        = ',' :: (nlInd ind2 ++ ('"' :: (escString k
            ++ '"' :: ':' :: ' ' :: (serJson ind2 v
              ++ (serFields ind2 fs ++ (nlInd ind ++ (rbrace :: rest))))))) := by
      simp [serFields]
    rw [hinput, skipWs_not_ws (show isWs ',' = false from rfl), ps_fieldsTail_cons,
      if_pos rfl, skipWs_nlInd, skipWs_not_ws (show isWs '"' = false from rfl),
      rt_field k v f ind2 _ (by omega) (noDigitStart_serFields _ _ _ _)]
    simp only [rt_fields fs f ind2 ind rest (by omega)]

end

mutual

theorem size_le_lenV (v : JsonVal) : ∀ ind, jsizeV v ≤ (serJson ind v).length := by
  intro ind
  cases v with
  | null => simp [jsizeV, serJson]
  | bool b => cases b <;> simp [jsizeV, serJson]
  | num n =>
    have h1 : intChars n ≠ [] := by
      unfold intChars
      split
      · simp
      · exact natDigits_ne_nil _
    have := List.length_pos.mpr h1
    simp only [jsizeV, serJson]
    omega
  | str s => simp [jsizeV, serJson]
  | arr vs =>
    cases vs with
    | nil => simp [jsizeV, jsizeA, serJson]
    | cons v vs =>
      have h1 := size_le_lenV v (ind + 2)
      have h2 := size_le_lenA vs (ind + 2)
      simp [jsizeV, jsizeA, serJson, nlInd]
      omega
  | obj fs =>
    cases fs with
    | nil => simp [jsizeV, jsizeO, serJson]
    | cons k v fs =>
      have h1 := size_le_lenV v (ind + 2)
      have h2 := size_le_lenO fs (ind + 2)
      simp [jsizeV, jsizeO, serJson, nlInd]
      omega

theorem size_le_lenA (vs : JsonArr) : ∀ ind, jsizeA vs ≤ (serItems ind vs).length := by
  intro ind
  cases vs with
  | nil => simp [jsizeA, serItems]
  | cons v vs =>
    have h1 := size_le_lenV v ind
    have h2 := size_le_lenA vs ind
    simp [jsizeA, serItems, nlInd]
    omega

theorem size_le_lenO (fs : JsonObj) : ∀ ind, jsizeO fs ≤ (serFields ind fs).length := by
  intro ind
  cases fs with
  | nil => simp [jsizeO, serFields]
  | cons k v fs =>
    have h1 := size_le_lenV v ind
    have h2 := size_le_lenO fs ind
    simp [jsizeO, serFields, nlInd]
    omega

end

/-- Round-trip of the wire encoding: re-parsing a serialized JSON value
recovers it exactly (`json.loads` after `json.dumps` is the identity). -/
theorem jsonParse_dumps (v : JsonVal) : jsonParse (dumps v) = some v := by
  unfold jsonParse dumps
  have hskip : skipWs (serJson 0 v) = serJson 0 v := by
    have := skipWs_serJson 0 v []
    simpa using this
  have h1 : parseStep ((serJson 0 v).length + 1) .val (serJson 0 v ++ [])
      = some (.val v, []) :=
    rt_val v _ 0 [] (by have := size_le_lenV v 0; omega) rfl
  rw [List.append_nil] at h1
  rw [hskip, h1]
  rfl

/-! ### Python-dict primitives used by the gateway -/

/-- A JSON string from a Lean string literal. -/
def jstr (s : String) : JsonVal := .str s.data

/-- Key lookup in a parsed JSON object (Python dict access). -/
def jlookup (k : List Char) : JsonObj → Option JsonVal
  | .nil => none
  | .cons k2 v rest => if k2 = k then some v else jlookup k rest

/-- Python `value.get(key, default)`: returns the member or the default on a
dict, raises `AttributeError` on any non-dict value. -/
def pyGet (v : JsonVal) (k : List Char) (d : JsonVal) : Except (List Char) JsonVal :=
  match v with
  | .obj fields => .ok ((jlookup k fields).getD d)
  | _ => .error "AttributeError: .get on non-dict".data

/-- Python `value == "literal"` for a parsed JSON value: only equal strings
compare equal. -/
def methodIs (m : JsonVal) (s : List Char) : Bool :=
  match m with
  | .str t => t = s
  | _ => false

/-- Python truthiness of a parsed JSON value (`if not project` style checks):
`None`, `False`, `0`, and empty strings/lists/dicts are falsy. -/
def pyFalsy : JsonVal → Bool
  | .null => true
  | .bool b => !b
  | .num n => n = 0
  | .str s => s.isEmpty
  | .arr .nil => true
  | .arr _ => false
  | .obj .nil => true
  | .obj _ => false

/-- Model of Python `str()` applied to a parsed JSON value, as interpolated
into the gateway's f-string error messages.  The gateway only ever
interpolates tool/method names (strings) into messages it later compares;
container renderings are abstracted. -/
def pyStrOf : JsonVal → List Char
  | .null => "None".data
  | .bool true => "True".data
  | .bool false => "False".data
  | .num n => intChars n
  | .str s => s
  | .arr _ => "<list>".data
  | .obj _ => "<dict>".data

/-! ### The Resource Client contract (external collaborator) -/

/-- One `zoneOperations().get()` response: the operation status string and,
when the finished operation carries one, its error (pre-rendered as the
Python `str(op_result["error"])` text). -/
structure OpResult where
  status : List Char
  error : Option (List Char)

/-- The Resource Client (`googleapiclient` compute service), abstracted as
oracles for one tool call: `listInstances maxResults` is the single
`instances().list(..., maxResults=...)` call and yields the response's
`items` (or raises: `.error` carries the Python exception text);
`opGet i` is the i-th `zoneOperations().get` poll of the submitted start
operation; `instGet i` is the i-th `instances().get` poll, giving the
instance's `status` field (absent = `None`). -/
structure Provider where
  listInstances : Nat → Except (List Char) JsonArr
  opGet : Nat → OpResult
  instGet : Nat → Option (List Char)

/-! ### Response envelopes (`mcp_gcloud_compute_http.py`) -/

/-- `mcp_error`: the JSON-RPC error envelope built by the gateway. -/
def mcp_error (reqId : JsonVal) (code : Int) (message : List Char) : JsonVal :=
  .obj (.cons "jsonrpc".data (jstr "2.0")
    (.cons "id".data reqId
      (.cons "error".data
        (.obj (.cons "code".data (.num code)
          (.cons "message".data (.str message) .nil))) .nil)))

/-- A successful `tools/call` envelope: the pre-serialized payload text
wrapped in a single `{type: "text", text: ...}` content item. -/
def mcpResult (reqId : JsonVal) (payloadText : List Char) : JsonVal :=
  .obj (.cons "jsonrpc".data (jstr "2.0")
    (.cons "id".data reqId
      (.cons "result".data
        (.obj (.cons "content".data
          (.arr (.cons (.obj (.cons "type".data (jstr "text")
            (.cons "text".data (.str payloadText) .nil))) .nil)) .nil)) .nil)))

/-- The `initialize` result of the HTTP gateway. -/
def initResult (reqId : JsonVal) : JsonVal :=
  .obj (.cons "jsonrpc".data (jstr "2.0")
    (.cons "id".data reqId
      (.cons "result".data
        (.obj (.cons "protocolVersion".data (jstr "2024-11-05")
          (.cons "capabilities".data (.obj .nil)
            (.cons "serverInfo".data
              (.obj (.cons "name".data (jstr "gcp-compute-mcp-api")
                (.cons "version".data (jstr "0.8.2") .nil))) .nil)))) .nil)))

/-- A string-typed property declaration in a tool's input schema. -/
def strProp (name : String) : List Char × JsonVal :=
  (name.data, .obj (.cons "type".data (jstr "string") .nil))

/-- The `list_instances` tool declaration of the HTTP gateway. -/
def listInstancesTool : JsonVal :=
  .obj (.cons "name".data (jstr "list_instances")
    (.cons "description".data (jstr "List GCP Compute Engine instances")
      (.cons "inputSchema".data
        (.obj (.cons "type".data (jstr "object")
          (.cons "properties".data
            (.obj (.cons (strProp "project").1 (strProp "project").2
              (.cons (strProp "zone").1 (strProp "zone").2 .nil)))
            (.cons "required".data
              (.arr (.cons (jstr "project") (.cons (jstr "zone") .nil))) .nil)))) .nil)))

/-- The `start_instance` tool declaration of the HTTP gateway. -/
def startInstanceToolDecl : JsonVal :=
  .obj (.cons "name".data (jstr "start_instance")
    (.cons "description".data (jstr "Start a GCP Compute Engine instance")
      (.cons "inputSchema".data
        (.obj (.cons "type".data (jstr "object")
          (.cons "properties".data
            (.obj (.cons (strProp "project").1 (strProp "project").2
              (.cons (strProp "zone").1 (strProp "zone").2
                (.cons (strProp "name").1 (strProp "name").2 .nil))))
            (.cons "required".data
              (.arr (.cons (jstr "project")
                (.cons (jstr "zone") (.cons (jstr "name") .nil)))) .nil)))) .nil)))

/-- The tool declarations the HTTP gateway's `tools/list` enumerates. -/
def httpDeclaredTools : JsonArr :=
  .cons listInstancesTool (.cons startInstanceToolDecl .nil)

/-- The `tools/list` result of the HTTP gateway. -/
def toolsListResult (reqId : JsonVal) : JsonVal :=
  .obj (.cons "jsonrpc".data (jstr "2.0")
    (.cons "id".data reqId
      (.cons "result".data
        (.obj (.cons "tools".data (.arr httpDeclaredTools) .nil)) .nil)))

/-- The `name` members of a declared tool list, for comparing the declared
registry with the dispatchable one. -/
def toolNames : JsonArr → List (Option JsonVal)
  | .nil => []
  | .cons t rest =>
      (match t with
       | .obj fields => jlookup "name".data fields
       | _ => none) :: toolNames rest

/-! ### The Lifecycle Tracker (`start_instance` polling loops) -/

/-- Trace of the `while True` operation-polling loop of `start_instance`
(`mcp_gcloud_compute_http.py` lines 196–210).  `outcome` is `none` when
`fuel` provider responses were exhausted with the loop still running
(the code has no bound of its own), `some none` on `DONE` without error
(the `break`), and `some (some e)` on `DONE` with an `error` member.
`polls` counts `zoneOperations().get` calls; `sleeps` lists the
`time.sleep` durations executed between polls. -/
structure OpPollOut where
  outcome : Option (Option (List Char))
  polls : Nat
  sleeps : List Nat

def pollOperationGo (prov : Provider) : Nat → Nat → OpPollOut
  | 0, _ => ⟨none, 0, []⟩
  | fuel + 1, i =>
      let r := prov.opGet i
      if r.status = "DONE".data then ⟨some r.error, 1, []⟩
      else
        let o := pollOperationGo prov fuel (i + 1)
        ⟨o.outcome, o.polls + 1, 2 :: o.sleeps⟩

/-- Trace of the bounded resource-state loop (`for i in range(30)` with
`status = None` before it): the last observed status, the number of
`instances().get` calls, and the sleeps executed. -/
structure ResPollOut where
  status : Option (List Char)
  polls : Nat
  sleeps : List Nat

def pollResourceGo (prov : Provider) : Nat → Nat → Option (List Char) → ResPollOut
  | 0, _, last => ⟨last, 0, []⟩
  | attempts + 1, i, _ =>
      let s := prov.instGet i
      if s = some "RUNNING".data then ⟨s, 1, []⟩
      else
        let o := pollResourceGo prov attempts (i + 1) s
        ⟨o.status, o.polls + 1, 5 :: o.sleeps⟩

/-- The resource-state poll as `start_instance` runs it: 30 attempts. -/
def pollResource (prov : Provider) : ResPollOut := pollResourceGo prov 30 0 none

/-- Python `None` / string into a JSON member value. -/
def optStr : Option (List Char) → JsonVal
  | none => .null
  | some s => .str s

/-- The note annotating every successful `start_instance` payload. -/
def provisionalNote : List Char :=
  "start request accepted; instance may still be provisioning".data

/-- The `start_instance` success payload (before `json.dumps`). -/
def startPayload (name : JsonVal) (status : Option (List Char)) : JsonVal :=
  .obj (.cons "instance".data name
    (.cons "status".data (optStr status)
      (.cons "note".data (.str provisionalNote) .nil)))

/-- Full trace of the `start_instance` tool body: the response (or `none`
when the operation-poll loop is still running after `opFuel` polls),
together with the poll/sleep counters of both phases. -/
structure StartTrace where
  response : Option JsonVal
  opPolls : Nat
  opSleeps : List Nat
  resPolls : Nat
  resSleeps : List Nat

/-- The `start_instance` handler (`mcp_gcloud_compute_http.py` lines
186–244) after argument validation: submit, poll the operation until DONE
(aborting with `-32000` if the finished operation reports an error,
without ever polling the instance), then poll the instance state at most
30 times and answer with the last observed status and the provisional
note. -/
def startInstanceTool (prov : Provider) (opFuel : Nat) (reqId name : JsonVal) : StartTrace :=
  let op := pollOperationGo prov opFuel 0
  match op.outcome with
  | none => ⟨none, op.polls, op.sleeps, 0, []⟩
  | some (some e) => ⟨some (mcp_error reqId (-32000) e), op.polls, op.sleeps, 0, []⟩
  | some none =>
      let rp := pollResource prov
      ⟨some (mcpResult reqId (dumps (startPayload name rp.status))),
        op.polls, op.sleeps, rp.polls, rp.sleeps⟩

/-! ### The HTTP Protocol Gateway (`handle_mcp`) -/

/-- The `tools/call` block of `handle_mcp` (lines 135–246), after the tool
name and arguments are read from the params: validate the arguments of the
recognized tool and run it, or answer `-32601` for any other tool name. -/
def dispatchToolsCall (prov : Provider) (opFuel : Nat) (reqId tool args : JsonVal) :
    Except (List Char) (Option JsonVal) :=
  if methodIs tool "list_instances".data then do
    let project ← pyGet args "project".data .null
    let zone ← pyGet args "zone".data .null
    if pyFalsy project || pyFalsy zone then
      pure (some (mcp_error reqId (-32602)
        "Both 'project' and 'zone' are required".data))
    else do
      let items ← prov.listInstances 50
      pure (some (mcpResult reqId
        (dumps (.obj (.cons "instances".data (.arr items) .nil)))))
  else if methodIs tool "start_instance".data then do
    let project ← pyGet args "project".data .null
    let zone ← pyGet args "zone".data .null
    let name ← pyGet args "name".data .null
    if pyFalsy project || pyFalsy zone || pyFalsy name then
      pure (some (mcp_error reqId (-32602)
        "project, zone and name are required".data))
    else
      pure (startInstanceTool prov opFuel reqId name).response
  else
    pure (some (mcp_error reqId (-32601) ("Unknown tool: ".data ++ pyStrOf tool)))

/-- The `/mcp` endpoint `handle_mcp`.  `raw` is the request body.
`.error e` models an uncaught Python exception escaping the endpoint
(FastAPI then answers HTTP 500, not a JSON-RPC error); `.ok none` models
the operation-poll loop still running after `opFuel` polls (no response
yet); `.ok (some resp)` is the returned JSON dict.  The lazy
`get_compute()` client initialization has no observable effect here and is
not modelled. -/
def handleMcp (prov : Provider) (opFuel : Nat) (raw : List Char) :
    Except (List Char) (Option JsonVal) :=
  match jsonParse raw with
  | none => .ok (some (mcp_error .null (-32700) "Invalid JSON".data))
  | some body => do
    let reqId ← pyGet body "id".data .null
    let method ← pyGet body "method".data .null
    let params ← pyGet body "params".data (.obj .nil)
    if methodIs method "initialize".data then
      pure (some (initResult reqId))
    else if methodIs method "tools/list".data then
      pure (some (toolsListResult reqId))
    else if methodIs method "tools/call".data then do
      let tool ← pyGet params "name".data .null
      let args ← pyGet params "arguments".data (.obj .nil)
      dispatchToolsCall prov opFuel reqId tool args
    else
      pure (some (mcp_error reqId (-32601) ("Method not found: ".data ++ pyStrOf method)))

/-! ### The stdio gateway (`mcp_gcloud_compute.py`) -/

/-- The `initialize` result of the stdio gateway (version 0.6.0). -/
def stdioInitResult (reqId : JsonVal) : JsonVal :=
  .obj (.cons "jsonrpc".data (jstr "2.0")
    (.cons "id".data reqId
      (.cons "result".data
        (.obj (.cons "protocolVersion".data (jstr "2024-11-05")
          (.cons "capabilities".data (.obj .nil)
            (.cons "serverInfo".data
              (.obj (.cons "name".data (jstr "gcp-compute-mcp-api")
                (.cons "version".data (jstr "0.6.0") .nil))) .nil)))) .nil)))

/-- The `tools/list` result of the stdio gateway: `list_instances` only. -/
def stdioToolsListResult (reqId : JsonVal) : JsonVal :=
  .obj (.cons "jsonrpc".data (jstr "2.0")
    (.cons "id".data reqId
      (.cons "result".data
        (.obj (.cons "tools".data (.arr (.cons listInstancesTool .nil)) .nil)) .nil)))

/-- `handle_tools_call` of the stdio gateway: the message it `send`s.
The provider call sits inside a `try` whose handler sends error `-32000`
with `str(exc)`, so a raising Resource Client still yields a response. -/
def handle_tools_call (prov : Provider) (reqId : JsonVal) (params : JsonVal) :
    Except (List Char) JsonVal := do
  let toolName ← pyGet params "name".data .null
  let args ← pyGet params "arguments".data (.obj .nil)
  if !(methodIs toolName "list_instances".data) then
    pure (mcp_error reqId (-32601) ("Unknown tool: ".data ++ pyStrOf toolName))
  else do
    let project ← pyGet args "project".data .null
    let zone ← pyGet args "zone".data .null
    if pyFalsy project || pyFalsy zone then
      pure (mcp_error reqId (-32602) "Both 'project' and 'zone' are required".data)
    else
      match prov.listInstances 50 with
      | .ok items =>
          pure (mcpResult reqId (dumps (.obj (.cons "instances".data (.arr items) .nil))))
      | .error exc => pure (mcp_error reqId (-32000) exc)

/-- One iteration of the stdio gateway's `main` loop: the messages written
to stdout for one input line.  An unparseable line is skipped (`continue`)
with no output at all; a line that parses to a non-dict raises an uncaught
`AttributeError` (only `json.JSONDecodeError` is caught). -/
def stdioStep (prov : Provider) (line : List Char) :
    Except (List Char) (List JsonVal) :=
  match jsonParse line with
  | none => .ok []
  | some request => do
    let reqId ← pyGet request "id".data .null
    let method ← pyGet request "method".data .null
    if methodIs method "initialize".data then
      pure [stdioInitResult reqId]
    else if methodIs method "tools/list".data then
      pure [stdioToolsListResult reqId]
    else if methodIs method "tools/call".data then do
      let params ← pyGet request "params".data (.obj .nil)
      let resp ← handle_tools_call prov reqId params
      pure [resp]
    else
      pure [mcp_error reqId (-32601) ("Method not found: ".data ++ pyStrOf method)]

/-! ### The Action Ledger and client-side tool wrappers (`app.py`) -/

/-- An entry of `ACTION_MEMORY`: one recorded GCP tool action
(`_record_gcp_action`).  The timestamp is the rendered
`datetime.now(timezone.utc).isoformat()` string, supplied by the caller's
clock. -/
structure ActionRecord where
  ts : List Char
  kind : List Char
  project : List Char
  zone : List Char
  name : Option (List Char)
  payload : JsonVal
  result : JsonVal

/-- `ACTION_MEMORY = deque(maxlen=500)`: the ledger capacity. -/
def ACTION_MEMORY_MAXLEN : Nat := 500

/-- Appending to a `deque(maxlen=cap)`: the new element goes to the tail
and, when the deque is full, the head is evicted. -/
def dequeAppend {α : Type} (cap : Nat) (l : List α) (x : α) : List α :=
  let l2 := l ++ [x]
  l2.drop (l2.length - cap)

/-- `_record_gcp_action`: append one action record to `ACTION_MEMORY`. -/
def record_gcp_action (mem : List ActionRecord) (r : ActionRecord) : List ActionRecord :=
  dequeAppend ACTION_MEMORY_MAXLEN mem r

/-- Python slice `l[i:]` with an `int` start: a negative start counts from
the end (clamped at the front), a non-negative start drops that many
elements; in particular `l[-0:] = l[0:]` is the whole list. -/
def pySliceFrom {α : Type} (l : List α) (i : Int) : List α :=
  if i < 0 then l.drop (l.length - (-i).toNat) else l.drop i.toNat

/-- `get_recent_gcp_actions(limit)`: the `actions` list of the returned
dict, `list(ACTION_MEMORY)[-limit:]`.  Read-only. -/
def get_recent_gcp_actions (mem : List ActionRecord) (limit : Int) : List ActionRecord :=
  pySliceFrom mem (-limit)

/-- `parse_mcp_result` (app.py lines 43–48): take `data.get("result", {})`;
if it is a dict containing `"content"`, JSON-parse
`result["content"][0]["text"]`, else return the result unchanged.
`.error` models the Python exceptions the extraction can raise. -/
def parse_mcp_result (data : JsonVal) : Except (List Char) JsonVal := do
  let result ← pyGet data "result".data (.obj .nil)
  match result with
  | .obj rfields =>
    match jlookup "content".data rfields with
    | some content =>
        match content with
        | .arr (.cons first _) =>
          match first with
          | .obj ffields =>
            match jlookup "text".data ffields with
            | some (.str t) =>
                match jsonParse t with
                | some v => pure v
                | none => .error "json.JSONDecodeError".data
            | some _ => .error "TypeError: json.loads on non-string".data
            | none => .error "KeyError: text".data
          | _ => .error "TypeError: content item is not a dict".data
        | .arr .nil => .error "IndexError: content is empty".data
        | _ => .error "TypeError: content is not a list".data
    | none => pure result
  | _ => pure result

/-- The JSON-RPC body each `gcp_*` wrapper in app.py POSTs to the gateway. -/
def toolCallBody (idStr tool : List Char) (args : JsonObj) : JsonVal :=
  .obj (.cons "jsonrpc".data (jstr "2.0")
    (.cons "id".data (.str idStr)
      (.cons "method".data (jstr "tools/call")
        (.cons "params".data
          (.obj (.cons "name".data (.str tool)
            (.cons "arguments".data (.obj args) .nil))) .nil))))

/-- The three-argument payload `{"project": .., "zone": .., "name": ..}`. -/
def instanceArgs (project zone name : List Char) : JsonObj :=
  .cons "project".data (.str project)
    (.cons "zone".data (.str zone)
      (.cons "name".data (.str name) .nil))

/-- `gcp_stop_instance` (app.py lines 202–217): POST a `stop_instance`
tools/call to the HTTP gateway, `raise_for_status` (FastAPI returns even
`mcp_error` dicts with HTTP 200, so it passes), run `parse_mcp_result`
WITHOUT checking the body for an `error` member, record the action into
`ACTION_MEMORY`, and return the parsed value.  `.error` covers an HTTP 500
from a server exception or a client timeout when the server never
responds. -/
def gcp_stop_instance (prov : Provider) (opFuel : Nat) (ts : List Char)
    (project zone name : List Char) (mem : List ActionRecord) :
    Except (List Char) (JsonVal × List ActionRecord) :=
  let raw := dumps (toolCallBody "gcp-stop".data "stop_instance".data
    (instanceArgs project zone name))
  match handleMcp prov opFuel raw with
  | .error e => .error e
  | .ok none => .error "httpx.ReadTimeout".data
  | .ok (some resp) => do
      let parsed ← parse_mcp_result resp
      pure (parsed,
        record_gcp_action mem
          ⟨ts, "stop_instance".data, project, zone, some name,
            .obj (instanceArgs project zone name), parsed⟩)

/-! ### Supporting lemmas for the claims -/

theorem handleMcp_toolCall (prov : Provider) (opFuel : Nat) (idStr tool : List Char) (args : JsonObj) :
    handleMcp prov opFuel (dumps (toolCallBody idStr tool args))
      = dispatchToolsCall prov opFuel (.str idStr) (.str tool) (.obj args) := by
  unfold handleMcp
  rw [jsonParse_dumps]
  simp [toolCallBody, pyGet, jlookup, methodIs, jstr, bind, Except.bind, pure, Except.pure]

theorem parse_mcp_result_mcpResult (reqId v : JsonVal) :
    parse_mcp_result (mcpResult reqId (dumps v)) = .ok v := by
  simp [parse_mcp_result, mcpResult, pyGet, jlookup, jstr, jsonParse_dumps,
    bind, Except.bind, pure, Except.pure]

-- ── polling lemmas ──

theorem pollResourceGo_polls_le (prov : Provider) :
    ∀ a i last, (pollResourceGo prov a i last).polls ≤ a := by
  intro a
  induction a with
  | zero => intro i last; simp [pollResourceGo]
  | succ n ih =>
    intro i last
    by_cases h : prov.instGet i = some "RUNNING".data
    · simp [pollResourceGo, h]
    · simp only [pollResourceGo, if_neg h]
      have := ih (i + 1) (prov.instGet i)
      omega

theorem pollResourceGo_noRun (prov : Provider) :
    ∀ a i last, (∀ j, j < a → prov.instGet (i + j) ≠ some "RUNNING".data) →
    pollResourceGo prov a i last
      = ⟨if a = 0 then last else prov.instGet (i + (a - 1)), a, List.replicate a 5⟩ := by
  intro a
  induction a with
  | zero => intro i last h; simp [pollResourceGo]
  | succ n ih =>
    intro i last h
    have h0 : prov.instGet i ≠ some "RUNNING".data := by
      have := h 0 (by omega)
      simpa using this
    simp only [pollResourceGo, if_neg h0]
    rw [ih (i + 1) (prov.instGet i) (fun j hj => by
      have := h (j + 1) (by omega)
      simpa [Nat.add_assoc, Nat.add_comm 1 j] using this)]
    by_cases hn : n = 0
    · subst hn; simp
    · simp only [if_neg hn, Nat.succ_ne_zero, if_false]
      have : i + 1 + (n - 1) = i + (n + 1 - 1) := by omega
      rw [this]
      simp [List.replicate_succ]

theorem opSleeps_all_two (prov : Provider) :
    ∀ fuel i, ∀ s ∈ (pollOperationGo prov fuel i).sleeps, s = 2 := by
  intro fuel
  induction fuel with
  | zero => intro i s hs; simp [pollOperationGo] at hs
  | succ n ih =>
    intro i s hs
    by_cases h : (prov.opGet i).status = "DONE".data
    · simp [pollOperationGo, h] at hs
    · simp only [pollOperationGo, if_neg h, List.mem_cons] at hs
      rcases hs with rfl | hs
      · rfl
      · exact ih (i + 1) s hs

theorem opPolls_not_done (prov : Provider) :
    ∀ fuel i j, j + 1 < (pollOperationGo prov fuel i).polls →
      (prov.opGet (i + j)).status ≠ "DONE".data := by
  intro fuel
  induction fuel with
  | zero => intro i j hj; simp [pollOperationGo] at hj
  | succ n ih =>
    intro i j hj
    by_cases h : (prov.opGet i).status = "DONE".data
    · simp [pollOperationGo, h] at hj
    · simp only [pollOperationGo, if_neg h] at hj
      cases j with
      | zero => simpa using h
      | succ j2 =>
        have := ih (i + 1) j2 (by omega)
        simpa [Nat.add_assoc, Nat.add_comm 1 j2] using this

theorem opPoll_done_at_end (prov : Provider) :
    ∀ fuel i, (pollOperationGo prov fuel i).outcome.isSome = true →
      1 ≤ (pollOperationGo prov fuel i).polls ∧
      (prov.opGet (i + ((pollOperationGo prov fuel i).polls - 1))).status = "DONE".data := by
  intro fuel
  induction fuel with
  | zero => intro i h; simp [pollOperationGo] at h
  | succ n ih =>
    intro i h
    by_cases hd : (prov.opGet i).status = "DONE".data
    · refine ⟨by simp [pollOperationGo, hd], ?_⟩
      simp [pollOperationGo, hd]
    · simp only [pollOperationGo, if_neg hd] at h ⊢
      obtain ⟨h1, h2⟩ := ih (i + 1) h
      refine ⟨by omega, ?_⟩
      have heq : i + (pollOperationGo prov n (i + 1)).polls
          = i + 1 + ((pollOperationGo prov n (i + 1)).polls - 1) := by omega
      simpa [heq] using h2

theorem opPoll_isSome_iff (prov : Provider) :
    ∀ fuel i, (pollOperationGo prov fuel i).outcome.isSome = true ↔
      ∃ j, j < fuel ∧ (prov.opGet (i + j)).status = "DONE".data := by
  intro fuel
  induction fuel with
  | zero =>
    intro i
    simp [pollOperationGo]
  | succ n ih =>
    intro i
    by_cases hd : (prov.opGet i).status = "DONE".data
    · simp only [pollOperationGo, hd, if_true]
      constructor
      · intro _; exact ⟨0, by omega, by simpa using hd⟩
      · intro _; rfl
    · simp only [pollOperationGo, if_neg hd]
      rw [ih (i + 1)]
      constructor
      · rintro ⟨j, hj, hdone⟩
        exact ⟨j + 1, by omega, by simpa [Nat.add_assoc, Nat.add_comm 1 j] using hdone⟩
      · rintro ⟨j, hj, hdone⟩
        cases j with
        | zero => exact absurd (by simpa using hdone) hd
        | succ j2 =>
          exact ⟨j2, by omega, by simpa [Nat.add_assoc, Nat.add_comm 1 j2] using hdone⟩

theorem pendingNever (prov : Provider) (hp : ∀ i, (prov.opGet i).status = "PENDING".data) :
    ∀ fuel i, (pollOperationGo prov fuel i).outcome = none := by
  intro fuel
  induction fuel with
  | zero => intro i; rfl
  | succ n ih =>
    intro i
    have : (prov.opGet i).status ≠ "DONE".data := by
      rw [hp i]
      decide
    simp [pollOperationGo, this, ih (i + 1)]

-- ── ledger lemmas ──

theorem dequeAppend_def {α : Type} (cap : Nat) (l : List α) (x : α) :
    dequeAppend cap l x = (l ++ [x]).drop ((l ++ [x]).length - cap) := rfl

theorem drop_append_left {α : Type} (l m : List α) (n : Nat) (h : n ≤ l.length) :
    (l ++ m).drop n = l.drop n ++ m := by
  rw [List.drop_append_eq_append_drop, Nat.sub_eq_zero_of_le h, List.drop_zero]

theorem foldl_dequeAppend {α : Type} (cap : Nat) (rs : List α) :
    ∀ init : List α, init.length ≤ cap →
      rs.foldl (dequeAppend cap) init = (init ++ rs).drop ((init ++ rs).length - cap) := by
  induction rs with
  | nil =>
    intro init h
    rw [List.foldl_nil, List.append_nil, show init.length - cap = 0 from by omega,
      List.drop_zero]
  | cons r rs ih =>
    intro init h
    rw [List.foldl_cons]
    have hlen : (dequeAppend cap init r).length ≤ cap := by
      simp [dequeAppend]
      omega
    rw [ih _ hlen, dequeAppend_def]
    have hd_le : (init ++ [r]).length - cap ≤ (init ++ [r]).length := by omega
    rw [← drop_append_left (init ++ [r]) rs _ hd_le, List.drop_drop]
    rw [show (init ++ [r]) ++ rs = init ++ r :: rs from by simp]
    congr 1
    simp [List.length_drop, List.length_append]
    omega

theorem record_fold (rs : List ActionRecord) :
    rs.foldl record_gcp_action [] = rs.drop (rs.length - 500) := by
  have := foldl_dequeAppend 500 rs [] (by simp)
  simpa [record_gcp_action, ACTION_MEMORY_MAXLEN] using this

theorem get_recent_pos (mem : List ActionRecord) (K : Int) (hK : 1 ≤ K) :
    get_recent_gcp_actions mem K = mem.drop (mem.length - K.toNat) := by
  unfold get_recent_gcp_actions pySliceFrom
  rw [if_pos (by omega : -K < 0)]
  simp


/-! ### Concrete providers and records used by witnesses and counterexamples -/

/-- A benign Resource Client: empty zone listing, operations complete at the
first poll without error, instances report `STAGING` forever. -/
def witnessProvider : Provider :=
  ⟨fun _ => .ok .nil, fun _ => ⟨"DONE".data, none⟩, fun _ => some "STAGING".data⟩

/-- A Resource Client whose `instances().list` call raises. -/
def boomProvider : Provider :=
  ⟨fun _ => .error "boom".data, fun _ => ⟨"DONE".data, none⟩, fun _ => none⟩

/-- A Resource Client whose operation never reaches `DONE`. -/
def pendingProvider : Provider :=
  ⟨fun _ => .ok .nil, fun _ => ⟨"PENDING".data, none⟩, fun _ => none⟩

/-- A Resource Client whose operation finishes `DONE` carrying an error. -/
def opErrProvider : Provider :=
  ⟨fun _ => .ok .nil, fun _ => ⟨"DONE".data, some "op failed".data⟩,
    fun _ => some "RUNNING".data⟩

/-- One concrete action record. -/
def sampleRecord : ActionRecord :=
  ⟨"2026-10-12T00:00:00+00:00".data, "list_instances".data, "p".data, "z".data,
    none, .obj .nil, .obj .nil⟩

def jsonArrOfList : List JsonVal → JsonArr
  | [] => .nil
  | v :: vs => .cons v (jsonArrOfList vs)

def jsonArrLength : JsonArr → Nat
  | .nil => 0
  | .cons _ vs => jsonArrLength vs + 1

/-- The keys of a JSON object, in order. -/
def objKeys : JsonObj → List (List Char)
  | .nil => []
  | .cons k _ fs => k :: objKeys fs

theorem jsonArrOfList_length (l : List JsonVal) :
    jsonArrLength (jsonArrOfList l) = l.length := by
  induction l with
  | nil => rfl
  | cons v vs ih => simp [jsonArrOfList, jsonArrLength, ih]

/-- A Resource Client honouring the `instances().list` contract:
`maxResults` caps the page at the first `maxResults` instances of the
zone; no follow-up page is ever fetched by the gateway. -/
def pagedProvider (zoneInstances : List JsonVal) : Provider :=
  ⟨fun maxResults => .ok (jsonArrOfList (zoneInstances.take maxResults)),
   fun _ => ⟨"DONE".data, none⟩, fun _ => none⟩

/-- The operation-poll counters of a start trace are those of the poll
loop, in every branch. -/
theorem startTrace_op (prov : Provider) (opFuel : Nat) (reqId name : JsonVal) :
    (startInstanceTool prov opFuel reqId name).opPolls = (pollOperationGo prov opFuel 0).polls
    ∧ (startInstanceTool prov opFuel reqId name).opSleeps
        = (pollOperationGo prov opFuel 0).sleeps := by
  unfold startInstanceTool
  rcases h : (pollOperationGo prov opFuel 0).outcome with _ | e
  · simp [h]
  · rcases e with _ | e <;> simp [h]

/-- When the instance never reports `RUNNING` in the first 30 polls, the
resource loop runs all 30 attempts, sleeps 5 units each time, and its
last observation is the 30th poll. -/
theorem pollResource_noRun (prov : Provider)
    (hnr : ∀ i, i < 30 → prov.instGet i ≠ some "RUNNING".data) :
    pollResource prov = ⟨prov.instGet 29, 30, List.replicate 30 5⟩ := by
  unfold pollResource
  rw [pollResourceGo_noRun prov 30 0 none (fun j hj => by simpa using hnr j hj)]
  simp

theorem startInstanceTool_response_noRun (prov : Provider) (opFuel : Nat)
    (hop : (pollOperationGo prov opFuel 0).outcome = some none)
    (hnr : ∀ i, i < 30 → prov.instGet i ≠ some "RUNNING".data) (reqId name : JsonVal) :
    (startInstanceTool prov opFuel reqId name).response
      = some (mcpResult reqId (dumps (startPayload name (prov.instGet 29)))) := by
  simp [startInstanceTool, hop, pollResource_noRun prov hnr]

/-! ### The claims -/

/-- C1: the claim says `listTools` exposes exactly the four tools
`list_instances`, `start_instance`, `stop_instance`, `get_recent_actions`,
with no drift between declared and dispatchable tools.  The HTTP gateway
in fact declares exactly TWO tools — `list_instances` and `start_instance`
— and dispatching the `stop_instance` call that `app.py`'s
`gcp_stop_instance` sends yields `-32601 Unknown tool`, for every
Resource Client. -/
theorem C1_registry_mismatch :
    toolNames httpDeclaredTools = [some (jstr "list_instances"), some (jstr "start_instance")]
    ∧ (∀ (prov : Provider) (opFuel : Nat),
        handleMcp prov opFuel (dumps (toolCallBody "gcp-stop".data "stop_instance".data
          (instanceArgs "p".data "z".data "n".data)))
          = .ok (some (mcp_error (jstr "gcp-stop") (-32601) "Unknown tool: stop_instance".data))) :=
  ⟨rfl, fun _ _ => rfl⟩

/-- C2: a `start_instance` call whose operation reaches `DONE` without
error but whose instance never reports `RUNNING` within the 30-attempt
resource-poll budget returns a SUCCESSFUL result (not an error) whose
payload carries the last-observed status (the 30th poll) together with
the provisional-convergence note. -/
theorem C2_provisional_success (prov : Provider) (opFuel : Nat)
    (project zone name : List Char)
    (hproj : project ≠ []) (hzone : zone ≠ []) (hname : name ≠ [])
    (hop : (pollOperationGo prov opFuel 0).outcome = some none)
    (hnr : ∀ i, i < 30 → prov.instGet i ≠ some "RUNNING".data) :
    handleMcp prov opFuel (dumps (toolCallBody "gcp-start".data "start_instance".data
        (instanceArgs project zone name)))
      = .ok (some (mcpResult (jstr "gcp-start")
          (dumps (startPayload (.str name) (prov.instGet 29)))))
    ∧ parse_mcp_result (mcpResult (jstr "gcp-start")
          (dumps (startPayload (.str name) (prov.instGet 29))))
      = .ok (startPayload (.str name) (prov.instGet 29))
    ∧ startPayload (.str name) (prov.instGet 29)
      = .obj (.cons "instance".data (.str name)
          (.cons "status".data (optStr (prov.instGet 29))
            (.cons "note".data (.str provisionalNote) .nil))) := by
  refine ⟨?_, parse_mcp_result_mcpResult _ _, rfl⟩
  rw [handleMcp_toolCall]
  simp [dispatchToolsCall, instanceArgs, methodIs, pyGet, jlookup, jstr, pyFalsy,
    bind, Except.bind, pure, Except.pure, hproj, hzone, hname,
    startInstanceTool_response_noRun prov opFuel hop hnr]

theorem C2_witness :
    handleMcp witnessProvider 1 (dumps (toolCallBody "gcp-start".data "start_instance".data
        (instanceArgs "p".data "z".data "n".data)))
      = .ok (some (mcpResult (jstr "gcp-start")
          (dumps (startPayload (.str "n".data) (some "STAGING".data))))) := by
  have h := C2_provisional_success witnessProvider 1 "p".data "z".data "n".data
    (by decide) (by decide) (by decide) rfl
    (fun i _ => by
      show some "STAGING".data ≠ some "RUNNING".data
      decide)
  exact h.1

/-- C3: during `start_instance` the tracker sleeps exactly 2 time units
between operation polls, keeps polling exactly until the first `DONE`
status, and when the finished operation reports an error it returns that
error as `-32000` immediately, with zero resource-state polls (phase 3 is
never entered). -/
theorem C3_operation_polling (prov : Provider) (opFuel : Nat) (reqId name : JsonVal) :
    (∀ s ∈ (startInstanceTool prov opFuel reqId name).opSleeps, s = 2)
    ∧ (∀ j, j + 1 < (startInstanceTool prov opFuel reqId name).opPolls →
        (prov.opGet j).status ≠ "DONE".data)
    ∧ ((pollOperationGo prov opFuel 0).outcome.isSome = true →
        (prov.opGet ((startInstanceTool prov opFuel reqId name).opPolls - 1)).status
          = "DONE".data)
    ∧ (∀ e, (pollOperationGo prov opFuel 0).outcome = some (some e) →
        (startInstanceTool prov opFuel reqId name).response = some (mcp_error reqId (-32000) e)
        ∧ (startInstanceTool prov opFuel reqId name).resPolls = 0) := by
  obtain ⟨hp, hs⟩ := startTrace_op prov opFuel reqId name
  refine ⟨?_, ?_, ?_, ?_⟩
  · rw [hs]
    exact opSleeps_all_two prov opFuel 0
  · rw [hp]
    intro j hj
    have := opPolls_not_done prov opFuel 0 j hj
    simpa using this
  · rw [hp]
    intro h
    have := (opPoll_done_at_end prov opFuel 0 h).2
    simpa using this
  · intro e he
    unfold startInstanceTool
    simp [he]

theorem C3_witness :
    (startInstanceTool opErrProvider 1 (.num 9) (jstr "n")).response
        = some (mcp_error (.num 9) (-32000) "op failed".data)
    ∧ (startInstanceTool opErrProvider 1 (.num 9) (jstr "n")).resPolls = 0 :=
  (C3_operation_polling opErrProvider 1 (.num 9) (jstr "n")).2.2.2 "op failed".data rfl

/-- C4 counterexample: `get_recent_gcp_actions` with `limit = 0` returns
the ENTIRE ledger (Python `list[-0:]` is the whole list), not
`min(0, length) = 0` records as the claim requires. -/
theorem C4_counterexample :
    get_recent_gcp_actions [sampleRecord] 0 = [sampleRecord]
    ∧ ([sampleRecord].length : Nat) ≠ min 0 [sampleRecord].length :=
  ⟨rfl, by decide⟩

/-- C4 (amended): appending N records against capacity 500 leaves exactly
the last `min(N, 500)` records, oldest evicted first; and for every
`limit ≥ 1` the recent-actions query returns exactly the last
`min(limit, length)` records in oldest-to-newest order (the query is a
pure read). -/
theorem C4_ledger (rs : List ActionRecord) (K : Int) (hK : 1 ≤ K) :
    (rs.foldl record_gcp_action []) = rs.drop (rs.length - 500)
    ∧ (rs.foldl record_gcp_action []).length = min rs.length 500
    ∧ get_recent_gcp_actions (rs.foldl record_gcp_action []) K
        = (rs.foldl record_gcp_action []).drop
            ((rs.foldl record_gcp_action []).length - K.toNat)
    ∧ (get_recent_gcp_actions (rs.foldl record_gcp_action []) K).length
        = min K.toNat (rs.foldl record_gcp_action []).length := by
  have h1 := record_fold rs
  refine ⟨h1, ?_, get_recent_pos _ K hK, ?_⟩
  · rw [h1]
    simp [List.length_drop]
    omega
  · rw [get_recent_pos _ K hK]
    simp [List.length_drop]
    omega

theorem C4_witness :
    (1 : Int) ≤ 2
    ∧ get_recent_gcp_actions
        (([sampleRecord, sampleRecord, sampleRecord] : List ActionRecord).foldl
          record_gcp_action []) 2
      = (([sampleRecord, sampleRecord, sampleRecord] : List ActionRecord).foldl
          record_gcp_action []).drop
          ((([sampleRecord, sampleRecord, sampleRecord] : List ActionRecord).foldl
            record_gcp_action []).length - (2 : Int).toNat) :=
  ⟨by decide, (C4_ledger [sampleRecord, sampleRecord, sampleRecord] 2 (by decide)).2.2.1⟩

/-- C5: the claim says an unregistered tool name yields `-32601` and no
ledger record.  The gateway does answer `-32601` for `stop_instance`, but
`app.py`'s `gcp_stop_instance` never checks the body for an `error`
member: it parses the error response to `{}` and still appends a
`stop_instance` record to `ACTION_MEMORY`. -/
theorem C5_unknown_tool_still_recorded :
    gcp_stop_instance witnessProvider 1 "2026-10-12T00:00:00+00:00".data
        "p".data "z".data "n".data []
      = .ok (.obj .nil,
          [{ ts := "2026-10-12T00:00:00+00:00".data, kind := "stop_instance".data,
             project := "p".data, zone := "z".data, name := some "n".data,
             payload := .obj (instanceArgs "p".data "z".data "n".data),
             result := .obj .nil }])
    ∧ handleMcp witnessProvider 1 (dumps (toolCallBody "gcp-stop".data "stop_instance".data
        (instanceArgs "p".data "z".data "n".data)))
      = .ok (some (mcp_error (jstr "gcp-stop") (-32601) "Unknown tool: stop_instance".data)) :=
  ⟨rfl, rfl⟩

/-- C6 counterexample: in the HTTP gateway a raising Resource Client makes
the whole endpoint raise (HTTP 500) — no `-32000` JSON-RPC error is
produced for a valid `list_instances` call. -/
theorem C6_counterexample :
    handleMcp boomProvider 1 (dumps (toolCallBody "gcp-list".data "list_instances".data
        (.cons "project".data (jstr "p") (.cons "zone".data (jstr "z") .nil))))
      = .error "boom".data := rfl

/-- C6 (amended): only the stdio gateway's `handle_tools_call` wraps the
handler in `try/except`: a raising Resource Client there yields an error
RESPONSE with code `-32000` carrying the exception text. -/
theorem C6_stdio_handler_catches (prov : Provider) (exc : List Char)
    (herr : prov.listInstances 50 = .error exc)
    (reqId : JsonVal) (project zone : List Char) (hp : project ≠ []) (hz : zone ≠ []) :
    handle_tools_call prov reqId
        (.obj (.cons "name".data (jstr "list_instances")
          (.cons "arguments".data (.obj (.cons "project".data (.str project)
            (.cons "zone".data (.str zone) .nil))) .nil)))
      = .ok (mcp_error reqId (-32000) exc) := by
  simp [handle_tools_call, pyGet, jlookup, methodIs, jstr, pyFalsy,
    bind, Except.bind, pure, Except.pure, hp, hz, herr]

theorem C6_witness :
    boomProvider.listInstances 50 = .error "boom".data
    ∧ handle_tools_call boomProvider (.num 4)
        (.obj (.cons "name".data (jstr "list_instances")
          (.cons "arguments".data (.obj (.cons "project".data (jstr "p")
            (.cons "zone".data (jstr "z") .nil))) .nil)))
      = .ok (mcp_error (.num 4) (-32000) "boom".data) :=
  ⟨rfl, C6_stdio_handler_catches boomProvider "boom".data rfl (.num 4) "p".data "z".data
    (by decide) (by decide)⟩

/-- C7 counterexample: the stdio gateway silently skips an unparseable
input line (`continue` on `json.JSONDecodeError`), emitting no message at
all — in particular no `-32700` error response. -/
theorem C7_counterexample :
    stdioStep witnessProvider "not json".data = .ok [] := rfl

/-- C7 (amended): the HTTP gateway answers every body that fails JSON
parsing with error code `-32700` and a `null` request id. -/
theorem C7_http_parse_error (prov : Provider) (opFuel : Nat) (raw : List Char)
    (h : jsonParse raw = none) :
    handleMcp prov opFuel raw = .ok (some (mcp_error .null (-32700) "Invalid JSON".data)) := by
  unfold handleMcp
  rw [h]

theorem C7_witness :
    jsonParse "not json".data = none
    ∧ handleMcp witnessProvider 1 "not json".data
        = .ok (some (mcp_error .null (-32700) "Invalid JSON".data)) :=
  ⟨rfl, C7_http_parse_error witnessProvider 1 "not json".data rfl⟩

/-- C8 counterexample: the operation-poll loop (`while True`) has NO
bound: against a Resource Client that keeps answering `PENDING` it never
settles, however many polls it is allowed — there is no finite poll
budget after which every `start_instance` invocation has stopped
polling. -/
theorem C8_counterexample :
    ¬ ∃ B : Nat, ∀ fuel : Nat, B ≤ fuel →
        (pollOperationGo pendingProvider fuel 0).outcome.isSome = true := by
  rintro ⟨B, hB⟩
  have h := hB B (le_refl B)
  rw [pendingNever pendingProvider (fun _ => rfl) B 0] at h
  simp at h

/-- C8 (amended): only the resource-state phase is bounded (at most 30
polls); the operation phase stops exactly when the provider first reports
`DONE`, so a provider that never does keeps it polling without bound. -/
theorem C8_resource_bounded_operation_unbounded (prov : Provider) :
    (pollResource prov).polls ≤ 30
    ∧ (∀ opFuel : Nat, (pollOperationGo prov opFuel 0).outcome.isSome = true ↔
        ∃ j, j < opFuel ∧ (prov.opGet j).status = "DONE".data) := by
  constructor
  · exact pollResourceGo_polls_le prov 30 0 none
  · intro opFuel
    have := opPoll_isSome_iff prov opFuel 0
    simpa using this

/-- C9: serialization round-trip — parsing the `text` of the single text
content item of a successful `tools/call` response yields exactly the
structured value the handler serialized into it, and the `list_instances`
pipeline produces exactly such a response. -/
theorem C9_roundtrip (prov : Provider) (opFuel : Nat) (project zone : List Char)
    (items : JsonArr) (hproj : project ≠ []) (hzone : zone ≠ [])
    (hitems : prov.listInstances 50 = .ok items) :
    (∀ reqId v : JsonVal, parse_mcp_result (mcpResult reqId (dumps v)) = .ok v)
    ∧ handleMcp prov opFuel (dumps (toolCallBody "gcp-list".data "list_instances".data
        (.cons "project".data (.str project) (.cons "zone".data (.str zone) .nil))))
      = .ok (some (mcpResult (jstr "gcp-list")
          (dumps (.obj (.cons "instances".data (.arr items) .nil))))) := by
  refine ⟨fun reqId v => parse_mcp_result_mcpResult reqId v, ?_⟩
  rw [handleMcp_toolCall]
  simp [dispatchToolsCall, methodIs, pyGet, jlookup, jstr, pyFalsy,
    bind, Except.bind, pure, Except.pure, hproj, hzone, hitems]

theorem C9_witness :
    parse_mcp_result (mcpResult (.num 3) (dumps (.obj .nil))) = .ok (.obj .nil)
    ∧ handleMcp witnessProvider 1 (dumps (toolCallBody "gcp-list".data "list_instances".data
        (.cons "project".data (.str "p".data) (.cons "zone".data (.str "z".data) .nil))))
      = .ok (some (mcpResult (jstr "gcp-list")
          (dumps (.obj (.cons "instances".data (.arr .nil) .nil))))) := by
  have h := C9_roundtrip witnessProvider 1 "p".data "z".data .nil
    (by decide) (by decide) rfl
  exact ⟨h.1 (.num 3) (.obj .nil), h.2⟩

/-- C10: `list_instances` issues its provider query with a fixed page cap
of `maxResults = 50` and no pagination follow-up, so the payload holds at
most 50 instances (exactly `min 50 |zone|`) and its object carries only
the `instances` key — no truncation indication. -/
theorem C10_page_cap (zoneInstances : List JsonVal) (opFuel : Nat)
    (project zone : List Char) (hproj : project ≠ []) (hzone : zone ≠ []) :
    handleMcp (pagedProvider zoneInstances) opFuel
        (dumps (toolCallBody "gcp-list".data "list_instances".data
          (.cons "project".data (.str project) (.cons "zone".data (.str zone) .nil))))
      = .ok (some (mcpResult (jstr "gcp-list")
          (dumps (.obj (.cons "instances".data
            (.arr (jsonArrOfList (zoneInstances.take 50))) .nil)))))
    ∧ jsonArrLength (jsonArrOfList (zoneInstances.take 50)) = min 50 zoneInstances.length
    ∧ jsonArrLength (jsonArrOfList (zoneInstances.take 50)) ≤ 50
    ∧ objKeys (.cons "instances".data
        (.arr (jsonArrOfList (zoneInstances.take 50))) .nil) = ["instances".data] := by
  refine ⟨?_, ?_, ?_, rfl⟩
  · rw [handleMcp_toolCall]
    simp [dispatchToolsCall, methodIs, pyGet, jlookup, jstr, pyFalsy,
      bind, Except.bind, pure, Except.pure, hproj, hzone, pagedProvider]
  · rw [jsonArrOfList_length, List.length_take]
  · rw [jsonArrOfList_length, List.length_take]
    omega

theorem C10_witness :
    handleMcp (pagedProvider (List.replicate 51 JsonVal.null)) 1
        (dumps (toolCallBody "gcp-list".data "list_instances".data
          (.cons "project".data (.str "p".data) (.cons "zone".data (.str "z".data) .nil))))
      = .ok (some (mcpResult (jstr "gcp-list")
          (dumps (.obj (.cons "instances".data
            (.arr (jsonArrOfList ((List.replicate 51 JsonVal.null).take 50))) .nil)))))
    ∧ jsonArrLength (jsonArrOfList ((List.replicate 51 JsonVal.null).take 50))
        = min 50 (List.replicate 51 JsonVal.null).length := by
  have h := C10_page_cap (List.replicate 51 JsonVal.null) 1 "p".data "z".data
    (by decide) (by decide)
  exact ⟨h.1, h.2.1⟩

end Reliabot
